import Mathlib

/-
Verification of the downtime roll-resolution engine.

Shallow embedding of src/scripts/roll-handler.mjs and the history-recording
helpers of src/scripts/constants.mjs. Randomness is made explicit: each
executor receives the primary d20 value and a tape of d6 face values, and
returns, together with its result record, a log of the die batches it
requested as (sides, count) pairs. Presentation-only string fields of the
source records (formula strings, resultLabel, id, timestamp) are omitted;
every other field and every computation step follows the source line by line.
-/

/-- Conditional modifier status, from CONDITIONAL_STATUS in roll-handler.mjs. -/
inductive ConditionalStatus where
  | pending
  | approved
  | rejected
deriving DecidableEq, Repr

/-- A conditional modifier as built by gatherConditionalModifiers in
roll-handler.mjs: a numeric value, a trimmed reason text and a status.
The opaque random id field of the source object is omitted. -/
structure ConditionalModifier where
  value : Int
  reason : String
  status : ConditionalStatus
deriving DecidableEq, Repr

/-- Models the source idiom `arr.length > 0 ? Math.max(...arr) : 0` used for
modifier dice in executePilotCheck: the maximum of a non-empty list, 0 for
the empty list. -/
def highestDie : List Int → Int
  | [] => 0
  | x :: xs => xs.foldl max x

/-- getPilotResultCategory from roll-handler.mjs (lines 621-626). -/
def getPilotResultCategory (total : Int) : String :=
  if total ≥ 20 then "triumph"
  else if total ≥ 10 then "success"
  else if total ≥ 1 then "conflict"
  else "disaster"

/-- getPoolResultCategory from roll-handler.mjs (lines 693-698); the
argument is a success count. -/
def getPoolResultCategory (successes : Nat) : String :=
  if successes ≥ 3 then "triumph"
  else if successes ≥ 2 then "success"
  else if successes ≥ 1 then "conflict"
  else "disaster"

/-- The potential sub-record of a pilot check result (the object stored
under the potential key in executePilotCheck). -/
structure PilotPotential where
  netAccuracy : Int
  modifierDice : List Int
  modifierValue : Int
  total : Int
  resultCategory : String
deriving DecidableEq, Repr

/-- The result record of executePilotCheck (formula strings and labels
omitted). -/
structure PilotCheckResult where
  d20 : Int
  accuracy : Int
  difficulty : Int
  netAccuracy : Int
  modifierDice : List Int
  modifierValue : Int
  total : Int
  resultCategory : String
  conditionals : List ConditionalModifier
  hasConditionals : Bool
  potential : Option PilotPotential
deriving DecidableEq, Repr

/-- executePilotCheck from roll-handler.mjs (lines 533-616). The d20 draw is
the explicit argument d20; the single secondary d6 batch is read as a prefix
of the tape. The returned log lists the batches the source requests: one
(20, 1) roll always, then one (6, maxModCount) roll exactly when
maxModCount > 0 (the source only constructs the modifier Roll in that case). -/
def executePilotCheck (accuracy difficulty : Int)
    (conditionals : List ConditionalModifier) (d20 : Int) (tape : List Int) :
    PilotCheckResult × List (Nat × Nat) :=
  let netAccuracy := accuracy - difficulty
  let conditionalAccuracy := (conditionals.map (·.value)).sum
  let netWithConditional := netAccuracy + conditionalAccuracy
  let maxModCount := max netAccuracy.natAbs netWithConditional.natAbs
  let allModifierDice := if 0 < maxModCount then tape.take maxModCount else []
  let secondaryLog := if 0 < maxModCount then [(6, maxModCount)] else []
  let confirmedModifierDice :=
    if netAccuracy ≠ 0 then allModifierDice.take netAccuracy.natAbs else []
  let confirmedModifierValue :=
    if netAccuracy ≠ 0 then
      if 0 < netAccuracy then highestDie confirmedModifierDice
      else -(highestDie confirmedModifierDice)
    else 0
  let confirmedTotal := d20 + confirmedModifierValue
  let potentialModifierDice := allModifierDice
  let potentialModifierValue :=
    if netWithConditional ≠ 0 then
      if 0 < netWithConditional then highestDie potentialModifierDice
      else -(highestDie potentialModifierDice)
    else 0
  let potentialTotal := d20 + potentialModifierValue
  ({ d20 := d20
     accuracy := accuracy
     difficulty := difficulty
     netAccuracy := netAccuracy
     modifierDice := confirmedModifierDice
     modifierValue := confirmedModifierValue
     total := confirmedTotal
     resultCategory := getPilotResultCategory confirmedTotal
     conditionals := conditionals
     hasConditionals := decide (0 < conditionals.length)
     potential :=
       if 0 < conditionals.length then
         some { netAccuracy := netWithConditional
                modifierDice := potentialModifierDice
                modifierValue := potentialModifierValue
                total := potentialTotal
                resultCategory := getPilotResultCategory potentialTotal }
       else none },
   (20, 1) :: secondaryLog)

/-- The potential sub-record of a dice pool result (the object stored under
the potential key in executeDicePool). -/
structure PoolPotential where
  poolSize : Int
  diceResults : List Int
  conditionalDice : List Int
  successes : Nat
  additionalSuccesses : Int
  resultCategory : String
deriving DecidableEq, Repr

/-- The result record of executeDicePool (formula strings and labels
omitted). -/
structure DicePoolResult where
  poolSize : Nat
  diceResults : List Int
  successes : Nat
  resultCategory : String
  conditionals : List ConditionalModifier
  hasConditionals : Bool
  potential : Option PoolPotential
deriving DecidableEq, Repr

/-- executeDicePool from roll-handler.mjs (lines 636-688). The single d6
batch of size totalPoolSize is read as a prefix of the tape; the log records
that one batch. The source builds the batch with a dice formula whose count
is poolSize plus the conditional sum; toNat reflects that a die count below
zero cannot produce dice. slice(0, poolSize) is List.take, slice(poolSize)
is List.drop. -/
def executeDicePool (poolSize : Nat) (conditionals : List ConditionalModifier)
    (tape : List Int) : DicePoolResult × List (Nat × Nat) :=
  let conditionalDice := (conditionals.map (·.value)).sum
  let totalPoolSize := ((poolSize : Int) + conditionalDice).toNat
  let allDiceResults := tape.take totalPoolSize
  let confirmedDice := allDiceResults.take poolSize
  let conditionalDiceResults := allDiceResults.drop poolSize
  let confirmedSuccesses := (confirmedDice.filter (fun r => r ≥ 5)).length
  let allSuccesses := (allDiceResults.filter (fun r => r ≥ 5)).length
  ({ poolSize := poolSize
     diceResults := confirmedDice
     successes := confirmedSuccesses
     resultCategory := getPoolResultCategory confirmedSuccesses
     conditionals := conditionals
     hasConditionals := decide (0 < conditionals.length)
     potential :=
       if 0 < conditionals.length then
         some { poolSize := (poolSize : Int) + conditionalDice
                diceResults := allDiceResults
                conditionalDice := conditionalDiceResults
                successes := allSuccesses
                additionalSuccesses := (allSuccesses : Int) - (confirmedSuccesses : Int)
                resultCategory := getPoolResultCategory allSuccesses }
       else none },
   [(6, totalPoolSize)])

/-- The dispatch of executeRollFromDialog in roll-handler.mjs (lines
509-522) combined with the isPilotCheck computation of showRollDialog
(line 72): isPilotCheck is rollType compared with the pilot-check constant,
and every other roll type takes the dice pool branch. -/
def executeRollFromDialog (rollType : String) (accuracy difficulty : Int)
    (poolSize : Nat) (conditionals : List ConditionalModifier) (d20 : Int)
    (tape : List Int) : (PilotCheckResult ⊕ DicePoolResult) × List (Nat × Nat) :=
  if rollType = "pilot-check" then
    let p := executePilotCheck accuracy difficulty conditionals d20 tape
    (Sum.inl p.1, p.2)
  else
    let q := executeDicePool poolSize conditionals tape
    (Sum.inr q.1, q.2)

/-- Models the JS string trim used by gatherConditionalModifiers: drop
leading and trailing whitespace characters. Defined over the character list
so that it evaluates by kernel reduction. -/
def jsTrim (s : String) : String :=
  String.mk (((s.data.dropWhile Char.isWhitespace).reverse.dropWhile
    Char.isWhitespace).reverse)

/-- The accumulator loop of gatherConditionalModifiers in roll-handler.mjs
(lines 487-504): each dialog row carries a parsed numeric value and a reason
text; a row is pushed exactly when the value is positive and the trimmed
reason is non-empty, with status pending. The opaque random id is omitted. -/
def gatherLoop (rows : List (Int × String)) (acc : List ConditionalModifier) :
    List ConditionalModifier :=
  match rows with
  | [] => acc
  | (value, reason) :: rest =>
      if 0 < value ∧ jsTrim reason ≠ "" then
        gatherLoop rest
          (acc ++ [{ value := value, reason := jsTrim reason,
                     status := ConditionalStatus.pending }])
      else gatherLoop rest acc

/-- gatherConditionalModifiers from roll-handler.mjs (lines 487-504). -/
def gatherConditionalModifiers (rows : List (Int × String)) :
    List ConditionalModifier :=
  gatherLoop rows []

/-- The nested result object of a history entry, from createHistoryEntry in
constants.mjs (lines 39-51). -/
structure HistoryResult where
  success : Bool
  rollResult : String
  description : String
deriving DecidableEq, Repr

/-- A history entry as built by createHistoryEntry in constants.mjs (lines
39-51). The source object literal has no markerId property, so reading
entry.markerId yields undefined; that access is modelled by the markerId
field, which createHistoryEntry therefore always sets to none. The opaque
random id and the timestamp are omitted. -/
structure HistoryEntry where
  actionId : String
  actionName : String
  markerId : Option String
  result : HistoryResult
deriving DecidableEq, Repr

/-- createHistoryEntry from constants.mjs (lines 39-51). It declares exactly
three parameters (sessionId, action, result); the action argument is passed
as its id and name fields. The sessionId parameter is unused in the source
body as well. No markerId is stored. -/
def createHistoryEntry (_sessionId : Option String)
    (actionId actionName : String) (result : HistoryResult) : HistoryEntry :=
  { actionId := actionId
    actionName := actionName
    markerId := none
    result := result }

/-- The recordAction step of constants.mjs (lines 1369-1381): the success
flag is computed as rollResult being triumph or success, the entry is built
by createHistoryEntry, and unshift puts it at the front of the history. The
source passes the active marker id as a fourth argument to
createHistoryEntry, which declares only three parameters, so that argument
is dropped and cannot appear here. -/
def recordAction (_activeMarker : Option String)
    (actionId actionName rollResult notes : String)
    (history : List HistoryEntry) : List HistoryEntry :=
  let entry := createHistoryEntry none actionId actionName
    { success := decide (rollResult = "triumph" ∨ rollResult = "success")
      rollResult := rollResult
      description := notes }
  entry :: history

/-- The per-entry filter of getMarkerHistory in constants.mjs (lines
1176-1192): across the histories of all characters, keep the entries whose
markerId field equals the requested marker id (sorting and display
decoration omitted). -/
def getMarkerHistory (markerId : String)
    (histories : List (List HistoryEntry)) : List HistoryEntry :=
  (histories.map (fun h => h.filter (fun e => e.markerId = some markerId))).flatten

lemma foldl_max_init_le (a : Int) (l : List Int) : a ≤ l.foldl max a := by
  induction l generalizing a with
  | nil => exact le_refl a
  | cons x xs ih =>
      exact le_trans (le_max_left a x) (ih (max a x))

lemma mem_le_foldl_max (l : List Int) (a x : Int) (hx : x ∈ l) :
    x ≤ l.foldl max a := by
  induction l generalizing a with
  | nil => cases hx
  | cons y ys ih =>
      rcases List.mem_cons.mp hx with h | h
      · subst h
        exact le_trans (le_max_right a x) (foldl_max_init_le _ _)
      · exact ih _ h

lemma foldl_max_le (l : List Int) (a b : Int) (ha : a ≤ b)
    (h : ∀ x ∈ l, x ≤ b) : l.foldl max a ≤ b := by
  induction l generalizing a with
  | nil => exact ha
  | cons y ys ih =>
      exact ih _ (max_le ha (h y (List.mem_cons_self y ys)))
        (fun x hx => h x (List.mem_cons_of_mem _ hx))

lemma le_highestDie (l : List Int) (x : Int) (hx : x ∈ l) : x ≤ highestDie l := by
  cases l with
  | nil => cases hx
  | cons a as =>
      unfold highestDie
      rcases List.mem_cons.mp hx with h | h
      · subst h; exact foldl_max_init_le _ _
      · exact mem_le_foldl_max _ _ _ h

lemma highestDie_le (l : List Int) (b : Int) (hb : 0 ≤ b)
    (h : ∀ x ∈ l, x ≤ b) : highestDie l ≤ b := by
  cases l with
  | nil => exact hb
  | cons a as =>
      unfold highestDie
      exact foldl_max_le _ _ _ (h a (List.mem_cons_self a as))
        (fun x hx => h x (List.mem_cons_of_mem _ hx))

lemma highestDie_nonneg (l : List Int) (h : ∀ x ∈ l, 0 ≤ x) :
    0 ≤ highestDie l := by
  cases l with
  | nil => exact le_refl 0
  | cons a as =>
      exact le_trans (h a (List.mem_cons_self a as))
        (le_highestDie _ _ (List.mem_cons_self a as))

lemma one_le_highestDie (l : List Int) (hne : l ≠ []) (h : ∀ x ∈ l, 1 ≤ x) :
    1 ≤ highestDie l := by
  cases l with
  | nil => exact absurd rfl hne
  | cons a as =>
      exact le_trans (h a (List.mem_cons_self a as))
        (le_highestDie _ _ (List.mem_cons_self a as))

lemma highestDie_take_le (l : List Int) (k : Nat) (h : ∀ x ∈ l, 0 ≤ x) :
    highestDie (l.take k) ≤ highestDie l :=
  highestDie_le _ _ (highestDie_nonneg l h)
    (fun x hx => le_highestDie l x (List.take_subset k l hx))

lemma one_le_condSum (cs : List ConditionalModifier) (hne : cs ≠ [])
    (h : ∀ c ∈ cs, 1 ≤ c.value) : 1 ≤ (cs.map (·.value)).sum := by
  cases cs with
  | nil => exact absurd rfl hne
  | cons a as =>
      have h0 : 0 ≤ (as.map (·.value)).sum := by
        apply List.sum_nonneg
        intro x hx
        rcases List.mem_map.mp hx with ⟨c, hc, rfl⟩
        exact le_trans (by norm_num) (h c (List.mem_cons_of_mem _ hc))
      have h1 : 1 ≤ a.value := h a (List.mem_cons_self a as)
      simp only [List.map_cons, List.sum_cons]
      omega

lemma take_if_pos (tape : List Int) (m : Nat) :
    (if 0 < m then tape.take m else []) = tape.take m := by
  cases m with
  | zero => simp
  | succ k => simp

lemma pilot_log_eq (a d d20 : Int) (cs : List ConditionalModifier)
    (tape : List Int) (net netW : Int) (m : Nat)
    (hnet : net = a - d) (hw : netW = net + (cs.map (·.value)).sum)
    (hm : m = max net.natAbs netW.natAbs) :
    (executePilotCheck a d cs d20 tape).2
      = (20, 1) :: (if m = 0 then [] else [(6, m)]) := by
  subst hnet; subst hw; subst hm
  unfold executePilotCheck
  cases hc : max (a - d).natAbs (a - d + (cs.map (·.value)).sum).natAbs with
  | zero => simp [hc]
  | succ k => simp [hc]

lemma pilot_confirmed_eq (a d d20 : Int) (cs : List ConditionalModifier)
    (tape : List Int) (net netW : Int) (m : Nat)
    (hnet : net = a - d) (hw : netW = net + (cs.map (·.value)).sum)
    (hm : m = max net.natAbs netW.natAbs) :
    (executePilotCheck a d cs d20 tape).1.modifierDice
        = (tape.take m).take net.natAbs ∧
    (executePilotCheck a d cs d20 tape).1.modifierValue
        = net.sign * highestDie ((tape.take m).take net.natAbs) ∧
    (executePilotCheck a d cs d20 tape).1.total
        = d20 + net.sign * highestDie ((tape.take m).take net.natAbs) := by
  subst hnet; subst hw; subst hm
  unfold executePilotCheck
  rcases lt_trichotomy (a - d) 0 with h | h | h
  · have hs : (a - d).sign = -1 := Int.sign_eq_neg_one_iff_neg.mpr h
    simp [take_if_pos, h.ne, not_lt.mpr h.le, hs, neg_one_mul]
  · simp [take_if_pos, h]
  · have hs : (a - d).sign = 1 := Int.sign_eq_one_iff_pos.mpr h
    simp [take_if_pos, h.ne.symm, h, hs]

lemma pilot_potential_eq (a d d20 : Int) (cs : List ConditionalModifier)
    (tape : List Int) (net netW : Int) (m : Nat)
    (hnet : net = a - d) (hw : netW = net + (cs.map (·.value)).sum)
    (hm : m = max net.natAbs netW.natAbs) :
    (executePilotCheck a d cs d20 tape).1.potential
      = if 0 < cs.length then
          some { netAccuracy := netW
                 modifierDice := tape.take m
                 modifierValue := netW.sign * highestDie (tape.take m)
                 total := d20 + netW.sign * highestDie (tape.take m)
                 resultCategory :=
                   getPilotResultCategory
                     (d20 + netW.sign * highestDie (tape.take m)) }
        else none := by
  subst hnet; subst hw; subst hm
  unfold executePilotCheck
  rcases lt_trichotomy (a - d + (cs.map (·.value)).sum) 0 with h | h | h
  · have hs : (a - d + (cs.map (·.value)).sum).sign = -1 :=
      Int.sign_eq_neg_one_iff_neg.mpr h
    simp [take_if_pos, h.ne, not_lt.mpr h.le, hs, neg_one_mul]
  · simp [take_if_pos, h]
    split_ifs <;> simp_all
  · have hs : (a - d + (cs.map (·.value)).sum).sign = 1 :=
      Int.sign_eq_one_iff_pos.mpr h
    simp [take_if_pos, h.ne.symm, h, hs]

/-- Claim C1: every execution of executePilotCheck with accuracy a,
difficulty d and conditionals of total magnitude c draws exactly one
secondary d6 batch, of size max of the absolute values of a-d and a-d+c
(and none when that size is 0); the confirmed modifier is the maximum of
the first abs(a-d) batch values carrying the sign of a-d, the potential
modifier is the maximum of the entire batch carrying the sign of a-d+c,
and the confirmed and potential totals add those modifiers to the single
primary d20 draw. -/
theorem pilotCheck_single_batch_and_modifiers (a d d20 : Int)
    (cs : List ConditionalModifier) (tape : List Int) (net netW : Int) (m : Nat)
    (hnet : net = a - d) (hw : netW = net + (cs.map (·.value)).sum)
    (hm : m = max net.natAbs netW.natAbs) (hlen : m ≤ tape.length) :
    (executePilotCheck a d cs d20 tape).2
        = (20, 1) :: (if m = 0 then [] else [(6, m)]) ∧
    (tape.take m).length = m ∧
    (executePilotCheck a d cs d20 tape).1.modifierValue
        = net.sign * highestDie ((tape.take m).take net.natAbs) ∧
    (executePilotCheck a d cs d20 tape).1.total
        = d20 + net.sign * highestDie ((tape.take m).take net.natAbs) ∧
    (∀ p, (executePilotCheck a d cs d20 tape).1.potential = some p →
        p.modifierValue = netW.sign * highestDie (tape.take m) ∧
        p.total = d20 + netW.sign * highestDie (tape.take m)) := by
  refine ⟨pilot_log_eq a d d20 cs tape net netW m hnet hw hm, ?_,
    (pilot_confirmed_eq a d d20 cs tape net netW m hnet hw hm).2.1,
    (pilot_confirmed_eq a d d20 cs tape net netW m hnet hw hm).2.2, ?_⟩
  · rw [List.length_take]
    omega
  · intro p hp
    rw [pilot_potential_eq a d d20 cs tape net netW m hnet hw hm] at hp
    by_cases hc : 0 < cs.length
    · rw [if_pos hc] at hp
      cases hp
      exact ⟨rfl, rfl⟩
    · rw [if_neg hc] at hp
      cases hp

/-- Witness for C1 at the ThresholdRoll scenario of the spec: accuracy 2,
difficulty 0, one conditional of magnitude 1, primary draw 15, secondary
batch 6, 2, 4. -/
theorem pilotCheck_single_batch_witness :
    (executePilotCheck 2 0 [⟨1, "contact", ConditionalStatus.pending⟩] 15
        [6, 2, 4]).2 = (20, 1) :: (if 3 = 0 then [] else [(6, 3)]) ∧
    (([6, 2, 4] : List Int).take 3).length = 3 ∧
    (executePilotCheck 2 0 [⟨1, "contact", ConditionalStatus.pending⟩] 15
        [6, 2, 4]).1.modifierValue
      = (2 : Int).sign * highestDie ((([6, 2, 4] : List Int).take 3).take (2 : Int).natAbs) ∧
    (executePilotCheck 2 0 [⟨1, "contact", ConditionalStatus.pending⟩] 15
        [6, 2, 4]).1.total
      = 15 + (2 : Int).sign * highestDie ((([6, 2, 4] : List Int).take 3).take (2 : Int).natAbs) ∧
    (∀ p, (executePilotCheck 2 0 [⟨1, "contact", ConditionalStatus.pending⟩] 15
        [6, 2, 4]).1.potential = some p →
        p.modifierValue = (3 : Int).sign * highestDie (([6, 2, 4] : List Int).take 3) ∧
        p.total = 15 + (3 : Int).sign * highestDie (([6, 2, 4] : List Int).take 3)) :=
  pilotCheck_single_batch_and_modifiers 2 0 15
    [⟨1, "contact", ConditionalStatus.pending⟩] [6, 2, 4] 2 3 3
    (by decide) (by decide) (by decide) (by decide)

/-- Claim C10: for every execution of executePilotCheck with non-empty
conditionals of positive magnitude and any sequence of valid d6 draws
(faces 1 to 6), the potential total is at least the confirmed total. -/
theorem pilotCheck_potential_ge_confirmed (a d d20 : Int)
    (cs : List ConditionalModifier) (tape : List Int)
    (hcs : cs ≠ []) (hval : ∀ c ∈ cs, 1 ≤ c.value)
    (htape : ∀ v ∈ tape, 1 ≤ v ∧ v ≤ 6)
    (hlen : max (a - d).natAbs (a - d + (cs.map (·.value)).sum).natAbs
      ≤ tape.length) :
    ∀ p, (executePilotCheck a d cs d20 tape).1.potential = some p →
      (executePilotCheck a d cs d20 tape).1.total ≤ p.total := by
  intro p hp
  set net := a - d with hnet
  set csum := (cs.map (·.value)).sum with hcsum
  set netW := net + csum with hw
  set m := max net.natAbs netW.natAbs with hm
  have hsum1 : 1 ≤ csum := one_le_condSum cs hcs hval
  have hcpos : 0 < cs.length := by
    cases cs with
    | nil => exact absurd rfl hcs
    | cons x xs => simp
  have hblen : (tape.take m).length = m := by
    rw [List.length_take]; omega
  have hbatch1 : ∀ x ∈ tape.take m, (1 : Int) ≤ x :=
    fun x hx => (htape x (List.take_subset m tape hx)).1
  have hbatch0 : ∀ x ∈ tape.take m, (0 : Int) ≤ x :=
    fun x hx => le_trans (by norm_num) (hbatch1 x hx)
  have htotal := (pilot_confirmed_eq a d d20 cs tape net netW m hnet hw hm).2.2
  rw [pilot_potential_eq a d d20 cs tape net netW m hnet hw hm,
    if_pos hcpos] at hp
  cases hp
  rw [htotal]
  show d20 + net.sign * highestDie ((tape.take m).take net.natAbs)
      ≤ d20 + netW.sign * highestDie (tape.take m)
  apply add_le_add_left
  rcases lt_trichotomy net 0 with h1 | h1 | h1
  · rcases lt_trichotomy netW 0 with h2 | h2 | h2
    · -- both negative: the batch is exactly the confirmed dice
      have hmeq : m = net.natAbs := by omega
      have hall : (tape.take m).take net.natAbs = tape.take m := by
        apply List.take_of_length_le
        omega
      rw [Int.sign_eq_neg_one_iff_neg.mpr h1, Int.sign_eq_neg_one_iff_neg.mpr h2,
        hall]
    · -- netW zero: potential modifier 0, confirmed modifier nonpositive
      rw [h2, Int.sign_zero, zero_mul, Int.sign_eq_neg_one_iff_neg.mpr h1,
        neg_one_mul]
      have : 0 ≤ highestDie ((tape.take m).take net.natAbs) :=
        highestDie_nonneg _ (fun x hx =>
          hbatch0 x (List.take_subset _ _ hx))
      omega
    · -- net negative, netW positive
      rw [Int.sign_eq_neg_one_iff_neg.mpr h1, Int.sign_eq_one_iff_pos.mpr h2,
        neg_one_mul, one_mul]
      have hc1 : 1 ≤ highestDie ((tape.take m).take net.natAbs) := by
        apply one_le_highestDie
        · apply List.ne_nil_of_length_pos
          rw [List.length_take]
          omega
        · exact fun x hx => hbatch1 x (List.take_subset _ _ hx)
      have hc2 : 1 ≤ highestDie (tape.take m) := by
        apply one_le_highestDie
        · apply List.ne_nil_of_length_pos
          omega
        · exact hbatch1
      omega
  · -- net zero: confirmed modifier 0, potential nonnegative
    rw [h1, Int.sign_zero, zero_mul]
    have h2 : 0 < netW := by omega
    rw [Int.sign_eq_one_iff_pos.mpr h2, one_mul]
    have : 1 ≤ highestDie (tape.take m) := by
      apply one_le_highestDie
      · apply List.ne_nil_of_length_pos
        omega
      · exact hbatch1
    omega
  · -- net positive: prefix maximum is at most batch maximum
    have h2 : 0 < netW := by omega
    rw [Int.sign_eq_one_iff_pos.mpr h1, Int.sign_eq_one_iff_pos.mpr h2,
      one_mul, one_mul]
    exact highestDie_take_le _ _ hbatch0

/-- Witness for C10: accuracy 0, difficulty 0, one conditional of
magnitude 1, primary draw 10, tape 4; the potential total 14 is at least
the confirmed total 10. -/
theorem pilotCheck_potential_ge_witness :
    (executePilotCheck 0 0 [⟨1, "aid", ConditionalStatus.pending⟩] 10
        [4]).1.total
      ≤ (PilotPotential.mk 1 [4] 4 14 "success").total :=
  pilotCheck_potential_ge_confirmed 0 0 10
    [⟨1, "aid", ConditionalStatus.pending⟩] [4]
    (by decide) (by decide) (by decide) (by decide)
    (PilotPotential.mk 1 [4] 4 14 "success") (by decide)

lemma condSum_nonneg (cs : List ConditionalModifier)
    (h : ∀ c ∈ cs, 1 ≤ c.value) : 0 ≤ (cs.map (·.value)).sum := by
  apply List.sum_nonneg
  intro x hx
  rcases List.mem_map.mp hx with ⟨c, hc, rfl⟩
  exact le_trans (by norm_num) (h c hc)

lemma filter_take_length_le (p : Int → Bool) (l : List Int) (k : Nat) :
    ((l.take k).filter p).length ≤ (l.filter p).length := by
  conv_rhs => rw [← List.take_append_drop k l]
  rw [List.filter_append, List.length_append]
  omega

lemma pool_potential_eq (poolSize : Nat) (cs : List ConditionalModifier)
    (tape : List Int) :
    (executeDicePool poolSize cs tape).1.potential
      = if 0 < cs.length then
          some { poolSize := (poolSize : Int) + (cs.map (·.value)).sum
                 diceResults :=
                   tape.take ((poolSize : Int) + (cs.map (·.value)).sum).toNat
                 conditionalDice :=
                   (tape.take ((poolSize : Int) +
                     (cs.map (·.value)).sum).toNat).drop poolSize
                 successes :=
                   ((tape.take ((poolSize : Int) +
                     (cs.map (·.value)).sum).toNat).filter
                       (fun r => r ≥ 5)).length
                 additionalSuccesses :=
                   (((tape.take ((poolSize : Int) +
                     (cs.map (·.value)).sum).toNat).filter
                       (fun r => r ≥ 5)).length : Int) -
                   ((((tape.take ((poolSize : Int) +
                     (cs.map (·.value)).sum).toNat).take poolSize).filter
                       (fun r => r ≥ 5)).length : Int)
                 resultCategory :=
                   getPoolResultCategory
                     ((tape.take ((poolSize : Int) +
                       (cs.map (·.value)).sum).toNat).filter
                         (fun r => r ≥ 5)).length }
        else none := rfl

/-- Claim C2: for every execution of executeDicePool with non-empty
conditionals of positive magnitude, the confirmed dice are exactly the
first poolSize elements of the potential dice list, of length poolSize,
and the potential success count is at least the confirmed success count. -/
theorem dicePool_confirmed_prefix_monotone (poolSize : Nat)
    (cs : List ConditionalModifier) (tape : List Int)
    (hcs : cs ≠ []) (hval : ∀ c ∈ cs, 1 ≤ c.value)
    (hlen : ((poolSize : Int) + (cs.map (·.value)).sum).toNat ≤ tape.length) :
    ∀ p, (executeDicePool poolSize cs tape).1.potential = some p →
      (executeDicePool poolSize cs tape).1.diceResults
          = p.diceResults.take poolSize ∧
      (executeDicePool poolSize cs tape).1.diceResults.length = poolSize ∧
      (executeDicePool poolSize cs tape).1.successes ≤ p.successes := by
  intro p hp
  have hcpos : 0 < cs.length := by
    cases cs with
    | nil => exact absurd rfl hcs
    | cons x xs => simp
  have hsum1 : 1 ≤ (cs.map (·.value)).sum := one_le_condSum cs hcs hval
  rw [pool_potential_eq, if_pos hcpos] at hp
  cases hp
  refine ⟨rfl, ?_, ?_⟩
  · show ((tape.take ((poolSize : Int) +
        (cs.map (·.value)).sum).toNat).take poolSize).length = poolSize
    rw [List.length_take, List.length_take]
    omega
  · exact filter_take_length_le _ _ _

/-- Witness for C2 at the SuccessPool scenario of the spec: pool size 2,
one conditional of magnitude 2, batch 6, 3, 5, 2. -/
theorem dicePool_confirmed_prefix_witness :
    (executeDicePool 2 [⟨2, "crew", ConditionalStatus.pending⟩]
        [6, 3, 5, 2]).1.diceResults
      = (PoolPotential.mk 4 [6, 3, 5, 2] [5, 2] 2 1 "success").diceResults.take 2 ∧
    (executeDicePool 2 [⟨2, "crew", ConditionalStatus.pending⟩]
        [6, 3, 5, 2]).1.diceResults.length = 2 ∧
    (executeDicePool 2 [⟨2, "crew", ConditionalStatus.pending⟩]
        [6, 3, 5, 2]).1.successes
      ≤ (PoolPotential.mk 4 [6, 3, 5, 2] [5, 2] 2 1 "success").successes :=
  dicePool_confirmed_prefix_monotone 2 [⟨2, "crew", ConditionalStatus.pending⟩]
    [6, 3, 5, 2] (by decide) (by decide) (by decide)
    (PoolPotential.mk 4 [6, 3, 5, 2] [5, 2] 2 1 "success") (by decide)

/-- Claim C4: executeDicePool draws poolSize plus the sum of the conditional
magnitudes d6 values in one batch; the confirmed success count is the number
of values of at least 5 among the first poolSize draws, and the potential
success count is the number of values of at least 5 among the whole batch;
at pool size 2, one conditional of magnitude 2 and batch 6, 3, 5, 2 this
gives 1 confirmed success (conflict) and 2 potential successes (success). -/
theorem dicePool_batch_and_success_counts :
    (∀ (poolSize : Nat) (cs : List ConditionalModifier) (tape : List Int),
      (∀ c ∈ cs, 1 ≤ c.value) →
      (executeDicePool poolSize cs tape).2
          = [(6, poolSize + Int.toNat ((cs.map (fun c => c.value)).sum))] ∧
      (executeDicePool poolSize cs tape).1.successes
          = ((tape.take (poolSize + Int.toNat ((cs.map (fun c => c.value)).sum))).take
              poolSize).countP (fun r => r ≥ 5) ∧
      (∀ p, (executeDicePool poolSize cs tape).1.potential = some p →
        p.successes
          = (tape.take (poolSize + Int.toNat ((cs.map (fun c => c.value)).sum))).countP
              (fun r => r ≥ 5))) ∧
    (executeDicePool 2 [⟨2, "crew", ConditionalStatus.pending⟩]
        [6, 3, 5, 2]).1.successes = 1 ∧
    (executeDicePool 2 [⟨2, "crew", ConditionalStatus.pending⟩]
        [6, 3, 5, 2]).1.resultCategory = "conflict" ∧
    ((executeDicePool 2 [⟨2, "crew", ConditionalStatus.pending⟩]
        [6, 3, 5, 2]).1.potential.map (·.successes)) = some 2 ∧
    ((executeDicePool 2 [⟨2, "crew", ConditionalStatus.pending⟩]
        [6, 3, 5, 2]).1.potential.map (·.resultCategory)) = some "success" := by
  refine ⟨?_, by decide, by decide, by decide, by decide⟩
  intro poolSize cs tape hval
  have h0 : 0 ≤ (cs.map (fun c => c.value)).sum := condSum_nonneg cs hval
  have htot : ((poolSize : Int) + (cs.map (fun c => c.value)).sum).toNat
      = poolSize + Int.toNat ((cs.map (fun c => c.value)).sum) := by omega
  refine ⟨?_, ?_, ?_⟩
  · show [(6, ((poolSize : Int) + (cs.map (fun c => c.value)).sum).toNat)]
        = [(6, poolSize + Int.toNat ((cs.map (fun c => c.value)).sum))]
    rw [htot]
  · show (((tape.take (((poolSize : Int) +
        (cs.map (fun c => c.value)).sum).toNat)).take poolSize).filter
          (fun r => r ≥ 5)).length
      = ((tape.take (poolSize + Int.toNat
          ((cs.map (fun c => c.value)).sum))).take poolSize).countP
            (fun r => r ≥ 5)
    rw [htot, List.countP_eq_length_filter]
  · intro p hp
    rw [pool_potential_eq] at hp
    by_cases hc : 0 < cs.length
    · rw [if_pos hc] at hp
      cases hp
      show ((tape.take (((poolSize : Int) +
          (cs.map (fun c => c.value)).sum).toNat)).filter
            (fun r => r ≥ 5)).length
        = (tape.take (poolSize + Int.toNat
            ((cs.map (fun c => c.value)).sum))).countP (fun r => r ≥ 5)
      rw [htot, List.countP_eq_length_filter]
    · rw [if_neg hc] at hp
      cases hp

/-- Witness for C4: the hypothesis that all conditional magnitudes are
positive is discharged at the scenario input, and the drawn batch there has
size 4. -/
theorem dicePool_batch_witness :
    (∀ c ∈ [ConditionalModifier.mk 2 "crew" ConditionalStatus.pending],
        (1 : Int) ≤ c.value) ∧
    (executeDicePool 2 [ConditionalModifier.mk 2 "crew"
        ConditionalStatus.pending] [6, 3, 5, 2]).2 = [(6, 4)] :=
  ⟨by decide, by
    have h := (dicePool_batch_and_success_counts.1 2
      [ConditionalModifier.mk 2 "crew" ConditionalStatus.pending] [6, 3, 5, 2]
      (by decide)).1
    exact h.trans (by decide)⟩

/-- Claim C3: the ThresholdRoll classifier returns triumph exactly on totals
of at least 20, success on 10 to 19, conflict on 1 to 9 and disaster below 1
(no upper clamp, negative totals allowed); the SuccessPool classifier
returns triumph exactly on counts of at least 3, success on exactly 2,
conflict on exactly 1 and disaster on 0. -/
theorem result_classifier_thresholds (t : Int) (n : Nat) :
    (getPilotResultCategory t = "triumph" ↔ 20 ≤ t) ∧
    (getPilotResultCategory t = "success" ↔ 10 ≤ t ∧ t < 20) ∧
    (getPilotResultCategory t = "conflict" ↔ 1 ≤ t ∧ t < 10) ∧
    (getPilotResultCategory t = "disaster" ↔ t < 1) ∧
    (getPoolResultCategory n = "triumph" ↔ 3 ≤ n) ∧
    (getPoolResultCategory n = "success" ↔ n = 2) ∧
    (getPoolResultCategory n = "conflict" ↔ n = 1) ∧
    (getPoolResultCategory n = "disaster" ↔ n = 0) := by
  unfold getPilotResultCategory getPoolResultCategory
  split_ifs <;> simp_all <;> omega

/-- Claim C5 counterexample: the claim assigns conflict to a ThresholdRoll
total of exactly 0, but the classifier requires at least 1 for conflict and
returns disaster at 0. -/
theorem classifier_boundary_zero_counterexample :
    getPilotResultCategory 0 = "disaster" ∧
    (getPilotResultCategory 0 = "conflict" → False) := by decide

/-- Claim C5 as amended: boundary classifications: ThresholdRoll totals 20,
10, 1, 0 and -1 give triumph, success, conflict, disaster and disaster;
SuccessPool counts 0, 1, 2, 3 and 5 give disaster, conflict, success,
triumph and triumph. -/
theorem classifier_boundary_values :
    getPilotResultCategory 20 = "triumph" ∧
    getPilotResultCategory 10 = "success" ∧
    getPilotResultCategory 1 = "conflict" ∧
    getPilotResultCategory 0 = "disaster" ∧
    getPilotResultCategory (-1) = "disaster" ∧
    getPoolResultCategory 0 = "disaster" ∧
    getPoolResultCategory 1 = "conflict" ∧
    getPoolResultCategory 2 = "success" ∧
    getPoolResultCategory 3 = "triumph" ∧
    getPoolResultCategory 5 = "triumph" := by decide

lemma pilotCategory_mem (t : Int) :
    getPilotResultCategory t
      ∈ (["triumph", "success", "conflict", "disaster"] : List String) := by
  unfold getPilotResultCategory
  split_ifs <;> simp

lemma poolCategory_mem (n : Nat) :
    getPoolResultCategory n
      ∈ (["triumph", "success", "conflict", "disaster"] : List String) := by
  unfold getPoolResultCategory
  split_ifs <;> simp

/-- Claim C7: both executors always populate the confirmed section (its
outcome tier is always one of the four categories), and attach the
potential section exactly when the conditionals list is non-empty. -/
theorem potential_iff_conditionals (a d d20 : Int) (poolSize : Nat)
    (cs : List ConditionalModifier) (tape : List Int) :
    ((executePilotCheck a d cs d20 tape).1.potential.isSome = true ↔ cs ≠ []) ∧
    ((executeDicePool poolSize cs tape).1.potential.isSome = true ↔ cs ≠ []) ∧
    (executePilotCheck a d cs d20 tape).1.resultCategory
        ∈ (["triumph", "success", "conflict", "disaster"] : List String) ∧
    (executeDicePool poolSize cs tape).1.resultCategory
        ∈ (["triumph", "success", "conflict", "disaster"] : List String) := by
  refine ⟨?_, ?_, pilotCategory_mem _, poolCategory_mem _⟩
  · cases cs with
    | nil => simp [executePilotCheck]
    | cons x xs => simp [executePilotCheck]
  · cases cs with
    | nil => simp [executeDicePool]
    | cons x xs => simp [executeDicePool]

/-- Claim C6 counterexample: an unknown check kind does not fail fast. The
dispatch executes the roll as a dice pool, performs a d6 batch draw of size
2, and returns a complete result rather than signalling an error before any
draw. -/
theorem unknownKind_draws_counterexample :
    ("some-unknown-kind" = "pilot-check" → False) ∧
    ("some-unknown-kind" = "dice-pool" → False) ∧
    (executeRollFromDialog "some-unknown-kind" 0 0 2 [] 0 [5, 3]).2
        = [(6, 2)] ∧
    ((executeRollFromDialog "some-unknown-kind" 0 0 2 [] 0 [5, 3]).2 = []
        → False) ∧
    (executeRollFromDialog "some-unknown-kind" 0 0 2 [] 0 [5, 3]).1
        = Sum.inr (executeDicePool 2 [] [5, 3]).1 := by decide

/-- Claim C6 as amended: the executors perform no validation of the check
specification. Any roll type other than the pilot-check constant, an
unknown kind included, is routed to the dice-pool executor, which draws its
full d6 batch and returns a normal result; no error is signalled before the
draw. -/
theorem rollDispatch_no_validation (rollType : String) (a d d20 : Int)
    (poolSize : Nat) (cs : List ConditionalModifier) (tape : List Int)
    (h : rollType ≠ "pilot-check") :
    executeRollFromDialog rollType a d poolSize cs d20 tape
      = (Sum.inr (executeDicePool poolSize cs tape).1,
         (executeDicePool poolSize cs tape).2) ∧
    (executeRollFromDialog rollType a d poolSize cs d20 tape).2
      = [(6, Int.toNat ((poolSize : Int) + (cs.map (fun c => c.value)).sum))] := by
  unfold executeRollFromDialog
  rw [if_neg h]
  exact ⟨rfl, rfl⟩

/-- Witness for the amended C6 at the roll type recovery, which is not the
pilot-check constant: the dice-pool executor runs and draws one die. -/
theorem rollDispatch_no_validation_witness :
    ("recovery" = "pilot-check" → False) ∧
    executeRollFromDialog "recovery" 0 0 1 [] 0 [6]
      = (Sum.inr (executeDicePool 1 [] [6]).1, (executeDicePool 1 [] [6]).2) ∧
    (executeRollFromDialog "recovery" 0 0 1 [] 0 [6]).2
      = [(6, Int.toNat ((1 : Int) +
          (([] : List ConditionalModifier).map (fun c => c.value)).sum))] :=
  ⟨by decide,
   (rollDispatch_no_validation "recovery" 0 0 0 1 [] [6] (by decide)).1,
   (rollDispatch_no_validation "recovery" 0 0 0 1 [] [6] (by decide)).2⟩

lemma gatherLoop_append (rows : List (Int × String))
    (acc : List ConditionalModifier) :
    gatherLoop rows acc = acc ++ gatherLoop rows [] := by
  induction rows generalizing acc with
  | nil => simp [gatherLoop]
  | cons r rest ih =>
      cases r with
      | mk v s =>
          by_cases h : 0 < v ∧ jsTrim s ≠ ""
          · rw [gatherLoop, if_pos h, gatherLoop, if_pos h, List.nil_append]
            rw [ih (acc ++ [ConditionalModifier.mk v (jsTrim s)
              ConditionalStatus.pending]),
              ih [ConditionalModifier.mk v (jsTrim s)
                ConditionalStatus.pending]]
            simp
          · rw [gatherLoop, if_neg h, gatherLoop, if_neg h, ih]

lemma gather_eq_filter_map (rows : List (Int × String)) :
    gatherConditionalModifiers rows
      = (rows.filter (fun x => decide (0 < x.1 ∧ jsTrim x.2 ≠ ""))).map
          (fun x => ConditionalModifier.mk x.1 (jsTrim x.2)
            ConditionalStatus.pending) := by
  unfold gatherConditionalModifiers
  induction rows with
  | nil => simp [gatherLoop]
  | cons r rest ih =>
      cases r with
      | mk v s =>
          by_cases h : 0 < v ∧ jsTrim s ≠ ""
          · rw [gatherLoop, if_pos h, gatherLoop_append]
            simp only [List.filter_cons, decide_eq_true h]
            simp [ih]
          · rw [gatherLoop, if_neg h]
            simp only [List.filter_cons, decide_eq_false h]
            simp [ih]

/-- Claim C8: a proposed conditional row whose magnitude is nonpositive or
whose justification trims to empty is rejected as a no-op, leaving the
gathered list unchanged; every accepted entry has status pending; the
gathered list is exactly the valid rows, trimmed, in proposal order. -/
theorem gather_conditionals_validation :
    (∀ (pre post : List (Int × String)) (v : Int) (r : String),
        v ≤ 0 ∨ jsTrim r = "" →
        gatherConditionalModifiers (pre ++ (v, r) :: post)
          = gatherConditionalModifiers (pre ++ post)) ∧
    (∀ rows, gatherConditionalModifiers rows
        = (rows.filter (fun x => decide (0 < x.1 ∧ jsTrim x.2 ≠ ""))).map
            (fun x => ConditionalModifier.mk x.1 (jsTrim x.2)
              ConditionalStatus.pending)) ∧
    (∀ rows c, c ∈ gatherConditionalModifiers rows →
        c.status = ConditionalStatus.pending) := by
  refine ⟨?_, gather_eq_filter_map, ?_⟩
  · intro pre post v r h
    have hbad : ¬(0 < v ∧ jsTrim r ≠ "") := by
      rcases h with h | h
      · intro hc; omega
      · intro hc; exact hc.2 h
    rw [gather_eq_filter_map, gather_eq_filter_map, List.filter_append,
      List.filter_append, List.filter_cons, decide_eq_false hbad]
    simp
  · intro rows c hc
    rw [gather_eq_filter_map] at hc
    rcases List.mem_map.mp hc with ⟨x, _, rfl⟩
    rfl

/-- Witness for C8 at the two rejection instances of the spec: magnitude 0
with a reason, and magnitude 3 with an empty reason; both leave the
gathered list unchanged. -/
theorem gather_conditionals_witness :
    ((0 : Int) ≤ 0 ∨ jsTrim "reason" = "") ∧
    gatherConditionalModifiers [((0 : Int), "reason")]
      = gatherConditionalModifiers [] ∧
    ((3 : Int) ≤ 0 ∨ jsTrim "" = "") ∧
    gatherConditionalModifiers [((3 : Int), "")]
      = gatherConditionalModifiers [] ∧
    ((2 : Int) ≤ 0 ∨ jsTrim "   " = "") ∧
    gatherConditionalModifiers [((2 : Int), "   ")]
      = gatherConditionalModifiers [] :=
  ⟨Or.inl le_rfl,
   gather_conditionals_validation.1 [] [] 0 "reason" (Or.inl le_rfl),
   Or.inr (by decide),
   gather_conditionals_validation.1 [] [] 3 "" (Or.inr (by decide)),
   Or.inr (by decide),
   gather_conditionals_validation.1 [] [] 2 "   " (Or.inr (by decide))⟩

/-- Claim C9 evidence: for every call, recordAction builds the new history
entry through createHistoryEntry, which stores no marker identifier, so the
entry carries markerId none even when a marker is active, while its success
flag is true exactly when the outcome tier is triumph or success; at the
concrete failing input with active marker m1 and tier triumph, the entry
has markerId none and the marker history lookup for m1 finds nothing. -/
theorem recordAction_drops_marker_id :
    (∀ (marker : Option String) (aid an rr notes : String)
        (h : List HistoryEntry),
        (recordAction marker aid an rr notes h).head? = some
          { actionId := aid
            actionName := an
            markerId := none
            result := { success := decide (rr = "triumph" ∨ rr = "success")
                        rollResult := rr
                        description := notes } }) ∧
    (recordAction (some "m1") "act-1" "Buy Some Time" "triumph" "notes"
        []).map (fun e => e.markerId) = [none] ∧
    (recordAction (some "m1") "act-1" "Buy Some Time" "triumph" "notes"
        []).map (fun e => e.result.success) = [true] ∧
    getMarkerHistory "m1"
        [recordAction (some "m1") "act-1" "Buy Some Time" "triumph" "notes"
          []] = [] ∧
    (recordAction (some "m1") "act-1" "Buy Some Time" "conflict" "notes"
        []).map (fun e => e.result.success) = [false] :=
  ⟨fun _ _ _ _ _ _ => rfl, by decide, by decide, by decide, by decide⟩
